import Mathlib

/-!
Verification of the rust-tensor lazy tensor engine.

This file shallowly embeds the core of the repository (layout/stride
model, scalar kernels, the fusion rewriter, the graph evaluator and the
strided iterator) and settles the frozen claims about it.

Modelling conventions:
* i32 quantities (shapes, strides) are modelled as Int; the claims under
  consideration never exercise i32 overflow.
* usize quantities (offset, len) are modelled as Nat; the cast
  `x as usize` of a non-negative i32 is `Int.toNat`.
* f64 element values are modelled as rationals.  The source is generic
  over a NumberLike type with Add/Sub/Mul/Div/Neg; every concrete input
  used below is a small dyadic number on which f64 arithmetic is exact.
* The FFI kernel cblas_dscal (CBLAS) scales a buffer by its alpha
  argument; it is embedded by its documented contract.
-/

namespace RustTensor

/-- Error type of the engine, from errors.rs: InvalidViewShape and
NotSameShape carrying the expected and the got shape. -/
inductive OpError where
  | InvalidViewShape : OpError
  | NotSameShape (expected got : List Int) : OpError
deriving DecidableEq, Repr

/-- Row-major strides, from internals.rs calculate_dim_stride: the
source initializes v to all 1 and sets v[i] = shape[i+1] * v[i+1] from
the second-to-last index downwards, which this recursion reproduces
literally (v[last] stays 1). -/
def calculate_dim_stride : List Int → List Int
  | [] => []
  | [_] => [1]
  | _ :: d :: rest =>
    match calculate_dim_stride (d :: rest) with
    | v :: tl => (d * v) :: v :: tl
    | [] => []

/-- Accumulator of internals.rs calculate_adjacent_dim_stride: the later
dimensions contribute stride[k] * (shape[k] - 1) each; the source adds
these terms walking right to left. -/
def adjAccum : List Int → List Int → Int
  | s :: stl, d :: dtl => s * (d - 1) + adjAccum stl dtl
  | _, _ => 0

/-- Adjacent strides, from internals.rs calculate_adjacent_dim_stride:
v[i] = stride[i] - sum over k > i of stride[k] * (shape[k] - 1), and the
last entry keeps its stride.  The source loop indexes from
stride.len() - 1 and panics on rank 0; the claims only use rank >= 1,
where this recursion agrees with it. -/
def calculate_adjacent_dim_stride : List Int → List Int → List Int
  | [], _ => []
  | s :: stl, shape => (s - adjAccum stl shape.tail) :: calculate_adjacent_dim_stride stl shape.tail

/-- Layout, from layout.rs: shape, stride, adjacent stride, offset into
the flat buffer and total element count. -/
structure Layout where
  shape : List Int
  stride : List Int
  adj_stride : List Int
  offset : Nat
  len : Nat
deriving DecidableEq, Repr, Inhabited

/-- Layout.from_shape from layout.rs: row-major strides, adj_stride all
ones, len the product of the shape cast to usize. -/
def Layout.from_shape (shape : List Int) (offset : Nat) : Layout :=
  { shape := shape
    stride := calculate_dim_stride shape
    adj_stride := List.replicate shape.length 1
    offset := offset
    len := shape.prod.toNat }

/-- Layout.view from layout.rs: computes the product of the requested
shape, rejects with InvalidViewShape when size.max(0) as usize differs
from self.len, and otherwise rebuilds a row-major layout from the
requested shape keeping the offset. -/
def Layout.view (l : Layout) (shape : List Int) : Except OpError Layout :=
  let size : Int := shape.prod
  if (max size 0).toNat ≠ l.len then
    .error .InvalidViewShape
  else
    .ok (Layout.from_shape shape l.offset)

/-- Contiguity test from layout.rs is_contiguous: walking the
shape/stride pairs from the right, each stride must equal the running
product of the sizes already passed. -/
def Layout.is_contiguous (l : Layout) : Bool :=
  if l.shape.length ≠ l.stride.length then false
  else
    (((l.shape.zip l.stride).reverse.foldl
      (fun (st : Int × Bool) p =>
        let (dim_size, stride) := p
        if stride ≠ st.1 then (st.1, false) else (st.1 * dim_size, st.2))
      (1, true))).2

/-- Scalar-op variants from impl_compute_op.rs OpScalarKind, carrying
the scalar operand s. -/
inductive OpScalarKind (α : Type) where
  | Sum (s : α)
  | Sub (s : α)
  | Mul (s : α)
  | Div (s : α)
deriving DecidableEq, Repr

/-- Op catalogue from impl_compute_op.rs OpKind. -/
inductive OpKind (α : Type) where
  | NoOp
  | Add
  | Sub
  | Mul
  | Div
  | ScalarOp (op : OpScalarKind α)
  | FusedScalar (ops : List (OpScalarKind α))
  | View (l : Layout)
deriving DecidableEq, Repr

section Kernels

variable {α : Type} [Add α] [Sub α] [Mul α] [Div α] [Neg α]

/-- FFI routine cblas_dscal from mkl_extension.rs (standard CBLAS
contract, the body is outside this repository): scales every element of
the buffer by alpha. -/
def cblas_dscal (alpha : α) (input : List α) : List α :=
  input.map (fun el => el * alpha)

/-- Scalar kernel from impl_compute_op.rs compute_scalar_op.  The Sum
and Sub branches of the source both run the loop el = el + scalar, and
both the Mul and the Div branch pass the scalar itself to dscal, so Sub
adds and Div multiplies; this embedding keeps those branches exactly as
written. -/
def compute_scalar_op (op : OpScalarKind α) (input : List α) : List α :=
  match op with
  | .Sum scalar => input.map (fun el => el + scalar)
  | .Sub scalar => input.map (fun el => el + scalar)
  | .Mul scalar => cblas_dscal scalar input
  | .Div scalar => cblas_dscal scalar input

end Kernels

/-- Output-layout rules from impl_compute_op.rs compute_layout:
scalar-family and NoOp clone input[0]; View clones its stored layout;
the binary ops require equal shapes and report NotSameShape built from
inputs[0].shape() in both payload positions, exactly as the source
writes it. -/
def compute_layout {α : Type} (op : OpKind α) (inputs : List Layout) : Except OpError Layout :=
  match op with
  | .ScalarOp _ | .FusedScalar _ | .NoOp => .ok (inputs.headI)
  | .View new_layout => .ok new_layout
  | .Add | .Sub | .Mul | .Div =>
    let l0 := inputs.headI
    let l1 := (inputs.drop 1).headI
    if l0.shape = l1.shape then
      .ok l0
    else
      .error (.NotSameShape l0.shape l0.shape)

/-- Storage, from storage.rs: a shared dense buffer.  The Arc identity
of the Rust buffer is modelled by bufId; cloning by reference keeps the
id (shares the allocation), creating a fresh buffer mints a fresh id. -/
structure Storage (α : Type) where
  bufId : Nat
  buffer : List α
deriving DecidableEq, Repr

instance {α : Type} : Inhabited (Storage α) := ⟨⟨0, []⟩⟩

/-- Storage::clone_reference from storage.rs: clones the Arc, sharing
the same allocation. -/
def Storage.clone_reference {α : Type} (s : Storage α) : Storage α := s

/-- TensorData, from storage.rs: a Storage plus a Layout. -/
structure TensorData (α : Type) where
  storage : Storage α
  layout : Layout
deriving DecidableEq, Repr

instance {α : Type} : Inhabited (TensorData α) := ⟨⟨default, default⟩⟩

/-- TensorData::from_vec from storage.rs: a fresh Storage around the
buffer (bufId is the fresh allocation identity) and a row-major layout
with offset 0. -/
def TensorData.from_vec {α : Type} (bufId : Nat) (v : List α) (shape : List Int) : TensorData α :=
  ⟨⟨bufId, v⟩, Layout.from_shape shape 0⟩

/-- TensorData::clone_reference from storage.rs: shares the storage and
clones the layout. -/
def TensorData.clone_reference {α : Type} (td : TensorData α) : TensorData α :=
  ⟨td.storage.clone_reference, td.layout⟩

/-- TensorData::as_layout from storage.rs: same storage by reference,
replacement layout. -/
def TensorData.as_layout {α : Type} (td : TensorData α) (l : Layout) : TensorData α :=
  ⟨td.storage.clone_reference, l⟩

/-- Shape accessor of TensorData (Dimension impl in storage.rs). -/
def TensorData.shape {α : Type} (td : TensorData α) : List Int := td.layout.shape

/-- Carry loop of SliceIter::next from iter.rs, over the reversed
counter and reversed shape (fast dimension first).  The incremented
counter entry is compared with its shape entry; on equality it resets
to 0 and the carry moves outwards, except at dimension 0, which the
source loop (range last..=1) never resets.  Returns the new reversed
counter and the number of carries performed; the source's step_dim is
last minus that number. -/
def sliceCascade : List Int → List Int → List Int × Nat
  | c :: c2 :: cs, s :: ss =>
    if c = s then
      let st := sliceCascade ((c2 + 1) :: cs) ss
      (0 :: st.1, st.2 + 1)
    else (c :: c2 :: cs, 0)
  | cs, _ => (cs, 0)

/-- One SliceIter::next counter update from iter.rs: counter[last] is
incremented first, then the carry loop runs. -/
def sliceStep (shapeRev counterRev : List Int) : List Int × Nat :=
  match counterRev with
  | [] => ([], 0)
  | c :: cs => sliceCascade ((c + 1) :: cs) shapeRev

/-- Flat positions visited by SliceIter from iter.rs: each next() yields
the element at the current pos and then advances pos by
adj_stride[step_dim]; left_over counts the steps.  Lists arrive
reversed (fast dimension first) so step_dim indexes from the front. -/
def sliceIterPositionsAux (shapeRev adjRev : List Int) : Nat → Int → List Int → List Int
  | 0, _, _ => []
  | n + 1, pos, counterRev =>
    let st := sliceStep shapeRev counterRev
    pos :: sliceIterPositionsAux shapeRev adjRev n (pos + adjRev.getD st.2 0) st.1

/-- Positions visited by a SliceIter built by SliceIter::new from
iter.rs: pos starts at 0 (the constructor stores pos: 0 and the layout
offset is not an argument), the counter starts all zero, and left_over
is the data_len argument. -/
def SliceIter.positions (data_len : Nat) (shape adj_stride : List Int) : List Int :=
  sliceIterPositionsAux shape.reverse adj_stride.reverse data_len 0
    (List.replicate shape.length 0)

/-- Positions of TensorData::iter from storage.rs: SliceIter::new is
called with the buffer, self.len(), self.shape() and self.adj_stride();
the layout's offset is not passed. -/
def TensorData.iterPositions {α : Type} (td : TensorData α) : List Int :=
  SliceIter.positions td.layout.len td.layout.shape td.layout.adj_stride

/-- Elements yielded by TensorData::iter from storage.rs and iter.rs:
the buffer read at each visited position (the source indexes the buffer
directly and panics out of bounds; the claims evaluate it on in-bounds
runs). -/
def TensorData.iterElems {α : Type} [Inhabited α] (td : TensorData α) : List α :=
  td.iterPositions.map (fun p => td.storage.buffer.getD p.toNat default)

/-- Modelled from the spec: CopiedSliceIter's body is not under src/
(only its declaration in storage.rs and its callers are).  Per the spec
(iterator component, section 2) it is the by-value twin of SliceIter,
and TensorData::copied_iter passes it exactly the same buffer, len,
shape and adj_stride arguments with no offset, so it yields the same
element sequence as iter(). -/
def TensorData.copied_iter {α : Type} [Inhabited α] (td : TensorData α) : List α :=
  td.iterElems

/-- Graph node sum type from graph.rs NodeKind: an Edge wraps a
TensorData; a Node carries op, inputs and output layout; a CacheNode
(graph.rs TensorGraphCacheNode) carries its inner node's fields plus
the at-most-once slot, and exposes the inner node's id. -/
inductive NodeKind (α : Type) where
  | edge (id : Nat) (data : TensorData α)
  | node (id : Nat) (op : OpKind α) (inputs : List (NodeKind α)) (layout : Layout)
  | cache (id : Nat) (op : OpKind α) (inputs : List (NodeKind α)) (layout : Layout)
      (slot : Option (TensorData α))
deriving Repr

/-- get_id from graph.rs: an Edge's or Node's own id; a CacheNode uses
its inner node's id. -/
def get_id {α : Type} : NodeKind α → Nat
  | .edge id _ => id
  | .node id _ _ _ => id
  | .cache id _ _ _ _ => id

/-- Layout exposed by a node (graph.rs get_inputs_layout match arms). -/
def NodeKind.layoutOf {α : Type} : NodeKind α → Layout
  | .edge _ data => data.layout
  | .node _ _ _ layout => layout
  | .cache _ _ _ layout _ => layout

/-- get_inputs_layout from graph.rs. -/
def get_inputs_layout {α : Type} (inputs : List (NodeKind α)) : List Layout :=
  inputs.map NodeKind.layoutOf

/-- Fusion result record from fusion.rs. -/
structure Fusion (α : Type) where
  op : OpKind α
  inputs : List (NodeKind α)

section FusionRewriter

variable {α : Type} [Add α] [Sub α] [Mul α] [Div α] [Neg α]

/-- fuse_sum_scalar from fusion.rs: reads the parent and child scalars,
negating a Sub's scalar, and produces Sum(s1 + s2) over the parent's
inputs.  The Mul/Div arms are the source's unreachable branches (its
callers only pass Sum or Sub); the value chosen for them is never
used. -/
def fuse_sum_scalar (op1 : OpScalarKind α) (inputs1 : List (NodeKind α))
    (op2 : OpScalarKind α) : Fusion α :=
  let s1 := match op1 with
    | .Sum scalar => scalar
    | .Sub scalar => -scalar
    | .Mul scalar => scalar
    | .Div scalar => scalar
  let s2 := match op2 with
    | .Sum scalar => scalar
    | .Sub scalar => -scalar
    | .Mul scalar => scalar
    | .Div scalar => scalar
  ⟨.ScalarOp (.Sum (s1 + s2)), inputs1⟩

/-- fuse_mul_scalar from fusion.rs: the four Mul/Div pair rules.  The
fallthrough arm is the source's unreachable branch and is never hit by
its callers. -/
def fuse_mul_scalar (op1 : OpScalarKind α) (inputs1 : List (NodeKind α))
    (op2 : OpScalarKind α) : Fusion α :=
  match op1, op2 with
  | .Mul s1, .Mul s2 => ⟨.ScalarOp (.Mul (s1 * s2)), inputs1⟩
  | .Mul s1, .Div s2 => ⟨.ScalarOp (.Mul (s1 / s2)), inputs1⟩
  | .Div s1, .Mul s2 => ⟨.ScalarOp (.Mul (s2 / s1)), inputs1⟩
  | .Div s1, .Div s2 => ⟨.ScalarOp (.Div (s1 * s2)), inputs1⟩
  | _, _ => ⟨.ScalarOp op2, inputs1⟩

/-- fuse_scalars_into_combination from fusion.rs: a two-element
FusedScalar chain over the parent's inputs. -/
def fuse_scalars_into_combination (op1 : OpScalarKind α) (inputs1 : List (NodeKind α))
    (op2 : OpScalarKind α) : Fusion α :=
  ⟨.FusedScalar [op1, op2], inputs1⟩

/-- fuse_scalars from fusion.rs: dispatch over the parent/child family
pair; Sum/Sub pairs fold through fuse_sum_scalar, Mul/Div pairs through
fuse_mul_scalar, mixed families combine into a FusedScalar. -/
def fuse_scalars (op1 : OpScalarKind α) (inputs1 : List (NodeKind α))
    (op2 : OpScalarKind α) : Fusion α :=
  match op1 with
  | .Sum _ =>
    match op2 with
    | .Sum _ => fuse_sum_scalar op1 inputs1 op2
    | .Sub _ => fuse_sum_scalar op1 inputs1 op2
    | _ => fuse_scalars_into_combination op1 inputs1 op2
  | .Sub _ =>
    match op2 with
    | .Sum _ => fuse_sum_scalar op1 inputs1 op2
    | .Sub _ => fuse_sum_scalar op1 inputs1 op2
    | _ => fuse_scalars_into_combination op1 inputs1 op2
  | .Mul _ =>
    match op2 with
    | .Mul _ => fuse_mul_scalar op1 inputs1 op2
    | .Div _ => fuse_mul_scalar op1 inputs1 op2
    | _ => fuse_scalars_into_combination op1 inputs1 op2
  | .Div _ =>
    match op2 with
    | .Mul _ => fuse_mul_scalar op1 inputs1 op2
    | .Div _ => fuse_mul_scalar op1 inputs1 op2
    | _ => fuse_scalars_into_combination op1 inputs1 op2

/-- fuse_scalar_combination from fusion.rs: fuses the tail of the
FusedScalar chain with the incoming op.  When fuse_scalars collapsed
the pair to a single ScalarOp, the new chain is ops[..last] followed by
the collapsed op; when it returned a FusedScalar, the source builds
ops[..last] followed by op2 alone (Vec::with_capacity(ops.len() + 1),
extend over ops[..ops.len()-1], push op2), so the old tail op is not in
the new chain.  The source indexes ops[ops.len()-1] and would panic on
an empty chain, which no constructed node carries; the empty-chain arm
here is arbitrary and unused. -/
def fuse_scalar_combination (ops : List (OpScalarKind α)) (inputs1 : List (NodeKind α))
    (op2 : OpScalarKind α) : Fusion α :=
  match ops.getLast? with
  | none => ⟨.FusedScalar [op2], inputs1⟩
  | some tail =>
    let fused := fuse_scalars tail inputs1 op2
    let new_ops : List (OpScalarKind α) :=
      match fused.op with
      | .FusedScalar _ => ops.dropLast ++ [op2]
      | .ScalarOp scalar_op => ops.dropLast ++ [scalar_op]
      | _ => ops
    ⟨.FusedScalar new_ops, fused.inputs⟩

/-- compute_fusion from fusion.rs: a scalar parent fuses with a scalar
child through fuse_scalars; a FusedScalar parent fuses with a scalar
child through fuse_scalar_combination; anything else does not fuse.
The skip_input_idx parameter exists in the source signature and is
unused there too. -/
def compute_fusion (op1 : OpKind α) (inputs1 : List (NodeKind α))
    (op2 : OpKind α) (_inputs2 : List (NodeKind α)) (_skip_input_idx : Nat) :
    Option (Fusion α) :=
  match op1 with
  | .ScalarOp s1 =>
    match op2 with
    | .ScalarOp s2 => some (fuse_scalars s1 inputs1 s2)
    | _ => none
  | .FusedScalar ops =>
    match op2 with
    | .ScalarOp s2 => some (fuse_scalar_combination ops inputs1 s2)
    | _ => none
  | _ => none

/-- try_fuse from fusion.rs: starting from the unfused (op, inputs), it
walks the original input list with its indices; Edge inputs are
skipped, Node and Cache inputs offer their (op, inputs) as a fusion
parent, and a successful fusion replaces the current candidate. -/
def try_fuse (op : OpKind α) (inputs : List (NodeKind α)) : Fusion α :=
  inputs.enum.foldl
    (fun (current : Fusion α) p =>
      let (idx, inp) := p
      match inp with
      | .edge _ _ => current
      | .node _ nop ninputs _ =>
        match compute_fusion nop ninputs current.op current.inputs idx with
        | some f => f
        | none => current
      | .cache _ nop ninputs _ _ =>
        match compute_fusion nop ninputs current.op current.inputs idx with
        | some f => f
        | none => current)
    ⟨op, inputs⟩

/-- TensorGraphNode::new from graph.rs: runs try_fuse, computes the
output layout of the fused op over the fused inputs' layouts, and
panics (here: errors) if the layout rule rejects; the id is drawn from
the global NEXT_ID counter, made explicit here. -/
def TensorGraphNode.new (id : Nat) (op : OpKind α) (inputs : List (NodeKind α)) :
    Except OpError (NodeKind α) :=
  let fused := try_fuse op inputs
  match compute_layout fused.op (get_inputs_layout fused.inputs) with
  | .error e => .error e
  | .ok layout => .ok (.node id fused.op fused.inputs layout)

/-- TensorGraphNode::with_layout from graph.rs: runs try_fuse and
accepts the provided layout without validation. -/
def TensorGraphNode.with_layout (id : Nat) (op : OpKind α) (inputs : List (NodeKind α))
    (layout : Layout) : NodeKind α :=
  let fused := try_fuse op inputs
  .node id fused.op fused.inputs layout

end FusionRewriter

mutual

/-- Size of a node's input tree, used as the termination measure of the
sort loop (a CacheNode counts its inner node's inputs). -/
def nodeSize {α : Type} : NodeKind α → Nat
  | .edge _ _ => 1
  | .node _ _ inputs _ => 1 + nodeListSize inputs
  | .cache _ _ inputs _ _ => 1 + nodeListSize inputs

/-- Total size of a list of nodes. -/
def nodeListSize {α : Type} : List (NodeKind α) → Nat
  | [] => 0
  | n :: ns => nodeSize n + nodeListSize ns

end

/-- Lookup in an association list keyed by node id, modelling
HashMap::get. -/
def alistGet {β : Type} (m : List (Nat × β)) (k : Nat) : Option β :=
  (m.find? (fun p => p.1 = k)).map Prod.snd

/-- Insert-or-replace in an association list, modelling
HashMap::insert (and the in-place update through get_mut). -/
def alistInsert {β : Type} (m : List (Nat × β)) (k : Nat) (v : β) : List (Nat × β) :=
  match m with
  | [] => [(k, v)]
  | p :: rest => if p.1 = k then (k, v) :: rest else p :: alistInsert rest k v

/-- Removal from an association list, modelling HashMap::remove. -/
def alistRemove {β : Type} (m : List (Nat × β)) (k : Nat) : List (Nat × β) :=
  m.filter (fun p => p.1 ≠ k)

/-- Queue loop of TensorGraphNode::topological_sort from graph.rs:
current_inputs is a VecDeque popped at the front and extended at the
back (a breadth-first walk); an id already in the reference counter is
incremented and skipped; a new id is counted 1 and its node is pushed
onto the sorted list, descending into its inputs unless it is an Edge
or a CacheNode whose slot is filled. -/
def topoSortLoop {α : Type} :
    List (NodeKind α) → List (Nat × Nat) → List (NodeKind α) →
    List (NodeKind α) × List (Nat × Nat)
  | [], counter, sorted => (sorted, counter)
  | inp :: queue, counter, sorted =>
    let id := get_id inp
    match alistGet counter id with
    | some count => topoSortLoop queue (alistInsert counter id (count + 1)) sorted
    | none =>
      let counter2 := alistInsert counter id 1
      match inp with
      | .edge _ _ => topoSortLoop queue counter2 (sorted ++ [inp])
      | .node _ _ ninputs _ => topoSortLoop (queue ++ ninputs) counter2 (sorted ++ [inp])
      | .cache _ _ ninputs _ slot =>
        match slot with
        | some _ => topoSortLoop queue counter2 (sorted ++ [inp])
        | none => topoSortLoop (queue ++ ninputs) counter2 (sorted ++ [inp])
termination_by queue _ _ => nodeListSize queue
decreasing_by
  all_goals
    have happ : ∀ (a b : List (NodeKind α)),
        nodeListSize (a ++ b) = nodeListSize a + nodeListSize b := by
      intro a b
      induction a with
      | nil => simp [nodeListSize]
      | cons x xs ih => simp [nodeListSize, ih]; omega
    have hpos : ∀ (n : NodeKind α), 0 < nodeSize n := by
      intro n; cases n <;> simp only [nodeSize] <;> omega
    simp only [nodeListSize, nodeSize, happ]
    first
    | omega
    | (have h1 := hpos inp; omega)

/-- topological_sort from graph.rs: starts the queue from the root's
inputs (the root itself is not enqueued) with an empty counter and an
empty sorted list. -/
def topological_sort {α : Type} (inputs : List (NodeKind α)) :
    List (NodeKind α) × List (Nat × Nat) :=
  topoSortLoop inputs [] []

/-- Fatal evaluator panics of graph.rs, as observable outcomes:
refcountMissing is the unreachable! arm of get_inputs_tensor_data when
an id has no reference-counter entry; cacheEntryMissing is the
.unwrap() on computation_cache.remove/get returning None;
refcountUnderflow is the usize decrement of a counter already at 0. -/
inductive EvalErr where
  | refcountMissing
  | cacheEntryMissing
  | refcountUnderflow
deriving DecidableEq, Repr

/-- get_inputs_tensor_data from graph.rs: for each input id in order,
the reference counter is consulted (no entry is the unreachable!
panic); a count of 1 is zeroed and the cached TensorData is removed and
handed over; otherwise the count is decremented and a reference-clone
of the cached entry is handed over.  Returns the gathered inputs with
the updated cache and counter. -/
def get_inputs_tensor_data {α : Type} :
    List (NodeKind α) → List (Nat × TensorData α) → List (Nat × Nat) →
    Except EvalErr (List (TensorData α) × List (Nat × TensorData α) × List (Nat × Nat))
  | [], cache, counter => .ok ([], cache, counter)
  | n :: rest, cache, counter =>
    let id := get_id n
    match alistGet counter id with
    | none => .error .refcountMissing
    | some count =>
      if count = 1 then
        match alistGet cache id with
        | none => .error .cacheEntryMissing
        | some td =>
          match get_inputs_tensor_data rest (alistRemove cache id) (alistInsert counter id 0) with
          | .error e => .error e
          | .ok (tds, cache2, counter2) => .ok (td :: tds, cache2, counter2)
      else if count = 0 then
        .error .refcountUnderflow
      else
        match alistGet cache id with
        | none => .error .cacheEntryMissing
        | some td =>
          match get_inputs_tensor_data rest cache (alistInsert counter id (count - 1)) with
          | .error e => .error e
          | .ok (tds, cache2, counter2) => .ok (td.clone_reference :: tds, cache2, counter2)

section Evaluator

variable {α : Type} [Inhabited α] [Add α] [Sub α] [Mul α] [Div α] [Neg α]

/-- Modelled from the spec: ChunkedSliceIter (the chunk-packing
iterator of spec section 4.8) is not under src/ (only its declaration
and callers are).  It streams the strided source as consecutive
fixed-size contiguous runs whose absolute_buffer_position is the
running element index, so the per-chunk vdAdd/vdSub/vdMul/vdDiv calls
in cpu_compute_op_f64 compose to an elementwise combine at matching
linear indices; elements of the output past the second operand's length
are left untouched. -/
def chunkedCombine (f : α → α → α) (out other : List α) : List α :=
  out.zipWith f other ++ out.drop other.length

/-- Kernel dispatch from impl_compute_op.rs cpu_compute_op_f64 (the
source is monomorphic over f64; the arithmetic is the NumberLike
interface).  Scalar and fused ops copy inputs[0] through copied_iter,
run compute_scalar_op over the buffer, and wrap the result in a fresh
TensorData with inputs[0]'s shape; View re-layouts inputs[0]'s storage;
the binary ops combine inputs[0]'s copy with inputs[1]'s chunk stream
(vdAdd, vdSub, vdMul, vdDiv have the standard elementwise contracts);
NoOp reference-clones inputs[0].  The bufId argument is the identity of
the freshly allocated output buffer. -/
def cpu_compute (op : OpKind α) (inputs : List (TensorData α)) (bufId : Nat) : TensorData α :=
  let input0 := inputs.headI
  match op with
  | .ScalarOp sop =>
    TensorData.from_vec bufId (compute_scalar_op sop input0.copied_iter) input0.shape
  | .FusedScalar ops =>
    TensorData.from_vec bufId
      (ops.foldl (fun buffer sop => compute_scalar_op sop buffer) input0.copied_iter)
      input0.shape
  | .View new_layout => input0.as_layout new_layout
  | .Add =>
    TensorData.from_vec bufId
      (chunkedCombine (fun a b => a + b) input0.copied_iter ((inputs.drop 1).headI).copied_iter)
      input0.shape
  | .Sub =>
    TensorData.from_vec bufId
      (chunkedCombine (fun a b => a - b) input0.copied_iter ((inputs.drop 1).headI).copied_iter)
      input0.shape
  | .Mul =>
    TensorData.from_vec bufId
      (chunkedCombine (fun a b => a * b) input0.copied_iter ((inputs.drop 1).headI).copied_iter)
      input0.shape
  | .Div =>
    TensorData.from_vec bufId
      (chunkedCombine (fun a b => a / b) input0.copied_iter ((inputs.drop 1).headI).copied_iter)
      input0.shape
  | .NoOp => input0.clone_reference

/-- Evaluation walk of TensorGraphNode::compute from graph.rs over the
reversed sorted list: an Edge inserts a reference-clone of its data; a
Node gathers its inputs through the refcount discipline, dispatches the
kernel and inserts the result; a CacheNode with a filled slot inserts a
reference-clone of the slot, and an unfilled one runs like a Node (the
source also fills the slot, which no later step of the same walk reads
back since ids appear in the sorted list at most once).  The Nat
argument threads fresh output-buffer identities. -/
def evalSorted :
    List (NodeKind α) → List (Nat × TensorData α) → List (Nat × Nat) → Nat →
    Except EvalErr (List (Nat × TensorData α) × List (Nat × Nat) × Nat)
  | [], cache, counter, nb => .ok (cache, counter, nb)
  | n :: rest, cache, counter, nb =>
    match n with
    | .edge id data =>
      evalSorted rest (alistInsert cache id data.clone_reference) counter nb
    | .node id op ninputs _ =>
      match get_inputs_tensor_data ninputs cache counter with
      | .error e => .error e
      | .ok (tds, cache2, counter2) =>
        evalSorted rest (alistInsert cache2 id (cpu_compute op tds nb)) counter2 (nb + 1)
    | .cache id op ninputs _ slot =>
      match slot with
      | some t =>
        evalSorted rest (alistInsert cache id t.clone_reference) counter nb
      | none =>
        match get_inputs_tensor_data ninputs cache counter with
        | .error e => .error e
        | .ok (tds, cache2, counter2) =>
          evalSorted rest (alistInsert cache2 id (cpu_compute op tds nb)) counter2 (nb + 1)

/-- TensorGraphNode::compute from graph.rs (the body of materialize):
runs the topological sort from the root's inputs, walks the sorted list
in reverse with an initially empty computation cache, then gathers the
root's own inputs the same way and dispatches the root's kernel.
Returns the root's TensorData together with the computation cache as it
stands at the end of the call, and the next fresh buffer id. -/
def graphNodeCompute (op : OpKind α) (inputs : List (NodeKind α)) (nb : Nat) :
    Except EvalErr (TensorData α × List (Nat × TensorData α) × Nat) :=
  let (sorted, counter) := topological_sort inputs
  match evalSorted sorted.reverse [] counter nb with
  | .error e => .error e
  | .ok (cache, counter2, nb2) =>
    match get_inputs_tensor_data inputs cache counter2 with
    | .error e => .error e
    | .ok (tds, cacheFinal, _) => .ok (cpu_compute op tds nb2, cacheFinal, nb2 + 1)

/-- TensorGraphCacheNode::compute from graph.rs: a filled slot returns
a reference-clone of the cached TensorData; an empty slot runs the
inner node's compute, stores a reference-clone of the result in the
slot, and returns the result.  The last component counts how many times
the inner OpNode was actually computed by this call. -/
def cacheNodeCompute (op : OpKind α) (inputs : List (NodeKind α))
    (slot : Option (TensorData α)) (nb : Nat) :
    Except EvalErr (TensorData α × Option (TensorData α) × Nat × Nat) :=
  match slot with
  | some tensor => .ok (tensor.clone_reference, slot, nb, 0)
  | none =>
    match graphNodeCompute op inputs nb with
    | .error e => .error e
    | .ok (tensor, _, nb2) => .ok (tensor, some tensor.clone_reference, nb2, 1)

end Evaluator

section PublicSurface

variable {α : Type} [Add α] [Sub α] [Mul α] [Div α] [Neg α]

/-- Tensor::from_vec from tensor.rs: a fresh Edge (with its NEXT_ID
value made explicit) around a fresh TensorData over the buffer. -/
def Tensor.from_vec (bufId id : Nat) (v : List α) (shape : List Int) : NodeKind α :=
  .edge id (TensorData.from_vec bufId v shape)

/-- Tensor::as_promise from tensor.rs: a NoOp node whose sole input is
the tensor's Edge. -/
def Tensor.as_promise (id : Nat) (t : NodeKind α) : Except OpError (NodeKind α) :=
  TensorGraphNode.new id .NoOp [t]

/-- add_scalar_impl from impl_op.rs (the + operator against a scalar):
a new node with op ScalarOp(Sum(rhs)) over the lhs node. -/
def add_scalar_impl (lhs : NodeKind α) (rhs : α) (id : Nat) : Except OpError (NodeKind α) :=
  TensorGraphNode.new id (.ScalarOp (.Sum rhs)) [lhs]

/-- sub_scalar_impl from impl_op.rs (the - operator against a scalar):
a new node with op ScalarOp(Sub(rhs)) over the lhs node. -/
def sub_scalar_impl (lhs : NodeKind α) (rhs : α) (id : Nat) : Except OpError (NodeKind α) :=
  TensorGraphNode.new id (.ScalarOp (.Sub rhs)) [lhs]

/-- mul_scalar_impl from impl_op.rs (the * operator against a scalar). -/
def mul_scalar_impl (lhs : NodeKind α) (rhs : α) (id : Nat) : Except OpError (NodeKind α) :=
  TensorGraphNode.new id (.ScalarOp (.Mul rhs)) [lhs]

/-- div_scalar_impl from impl_op.rs (the / operator against a scalar). -/
def div_scalar_impl (lhs : NodeKind α) (rhs : α) (id : Nat) : Except OpError (NodeKind α) :=
  TensorGraphNode.new id (.ScalarOp (.Div rhs)) [lhs]

/-- add_tensor_impl from impl_op.rs (tensor + tensor): validates the
layout through compute_layout (panicking — here erroring — on
mismatch) and builds the node through with_layout. -/
def add_tensor_impl (lhs rhs : NodeKind α) (id : Nat) : Except OpError (NodeKind α) :=
  match compute_layout (OpKind.Add (α := α)) [lhs.layoutOf, rhs.layoutOf] with
  | .error e => .error e
  | .ok layout => .ok (TensorGraphNode.with_layout id .Add [lhs, rhs] layout)

end PublicSurface

section SpecSort

/-- Written from the spec's words for the depth-first claim (section
4.6, step 1): starting from the root's inputs, walk inputs in
depth-first order; a per-id counter is 1 on first visit and incremented
on later visits; filled CacheNodes contribute as leaves.  A node's
inputs are explored immediately (recursively) before its later
siblings, which is what depth-first order means. -/
def specDfsVisit {α : Type} : NodeKind α → List Nat × List (Nat × Nat) →
    List Nat × List (Nat × Nat)
  | n, (order, counter) =>
    let id := get_id n
    match alistGet counter id with
    | some count => (order, alistInsert counter id (count + 1))
    | none =>
      let counter2 := alistInsert counter id 1
      let order2 := order ++ [id]
      match n with
      | .edge _ _ => (order2, counter2)
      | .node _ _ ninputs _ =>
        ninputs.attach.foldl (fun acc c => specDfsVisit c.1 acc) (order2, counter2)
      | .cache _ _ ninputs _ slot =>
        match slot with
        | some _ => (order2, counter2)
        | none => ninputs.attach.foldl (fun acc c => specDfsVisit c.1 acc) (order2, counter2)
termination_by n => nodeSize n
decreasing_by
  all_goals
    have hmem : ∀ (l : List (NodeKind α)) (x : NodeKind α), x ∈ l →
        nodeSize x ≤ nodeListSize l := by
      intro l
      induction l with
      | nil => intro x hx; cases hx
      | cons y ys ih =>
        intro x hx
        rcases List.mem_cons.mp hx with h | h
        · subst h; simp only [nodeListSize]; omega
        · have := ih x h; simp only [nodeListSize]; omega
    simp only [nodeSize]
    have := hmem _ _ c.2
    omega

/-- Depth-first visit order of a whole input list, per the spec's
description of the sort. -/
def specDfsOrder {α : Type} (inputs : List (NodeKind α)) : List Nat :=
  (inputs.foldl (fun acc c => specDfsVisit c acc) ([], [])).1

end SpecSort

mutual

/-- All ids occurring anywhere in a node's tree (a CacheNode
contributes its id and its inner node's input trees). -/
def treeIds {α : Type} : NodeKind α → List Nat
  | .edge id _ => [id]
  | .node id _ inputs _ => id :: treeIdsList inputs
  | .cache id _ inputs _ _ => id :: treeIdsList inputs

/-- All ids occurring in a list of node trees. -/
def treeIdsList {α : Type} : List (NodeKind α) → List Nat
  | [] => []
  | n :: ns => treeIds n ++ treeIdsList ns

end

/-- Promising::compute dispatch over the node variants (graph.rs): an
Edge reference-clones its data, a Node runs the evaluator, a CacheNode
runs its slot-aware compute.  This is the body of materialize() from
promise.rs, which returns the computed TensorData. -/
def NodeKind.materialize {α : Type} [Inhabited α] [Add α] [Sub α] [Mul α] [Div α] [Neg α] :
    NodeKind α → Nat → Except EvalErr (TensorData α)
  | .edge _ data, _ => .ok data.clone_reference
  | .node _ op inputs _, nb => (graphNodeCompute op inputs nb).map (fun r => r.1)
  | .cache _ op inputs _ slot, nb => (cacheNodeCompute op inputs slot nb).map (fun r => r.1)

/-- Concrete materialized tensor x = [0.0] of shape [1] (Edge id 0,
buffer id 0), used by the claim evaluations. -/
def exEdgeZero : NodeKind ℚ := Tensor.from_vec 0 0 [0] [1]

/-- Fused chain (x + 1.0) - 2.0 built through the public scalar
operators (ids 1 and 2 for the two constructed nodes): each operator
runs try_fuse at node construction. -/
def exC1Fused : Except OpError (NodeKind ℚ) :=
  match add_scalar_impl exEdgeZero 1 1 with
  | .error e => .error e
  | .ok n1 => sub_scalar_impl n1 2 2

/-- First step x + 1.0 of the unfused chain (the same public operator
applied to the materialized tensor alone). -/
def exC1Step1 : Except OpError (NodeKind ℚ) := add_scalar_impl exEdgeZero 1 1

/-- Intermediate tensor produced by materializing x + 1.0 with fresh
buffer id 100 (the theorem checks this equality). -/
def exC1Mid : TensorData ℚ := TensorData.from_vec 100 [1] [1]

/-- Second step of the unfused chain: the - 2.0 operator applied to the
materialized intermediate wrapped as a fresh Tensor Edge (id 10, node
id 11); the input is an Edge, so try_fuse leaves the op alone. -/
def exC1Step2 : Except OpError (NodeKind ℚ) := sub_scalar_impl (.edge 10 exC1Mid) 2 11

/-- Concrete diamond DAG for the evaluator claims, as the public API
builds it for c + (c * 2.0) with c = x.as_promise(): Edge x (id 0),
NoOp node c (id 1), scalar-Mul node p over c (id 2), Add root (id 3)
with inputs [c, p]. -/
def exC5x : NodeKind ℚ := Tensor.from_vec 0 0 [1] [1]

/-- NoOp promise node c over x, id 1. -/
def exC5c : NodeKind ℚ := .node 1 .NoOp [exC5x] (Layout.from_shape [1] 0)

/-- Scalar node p = c * 2.0, id 2. -/
def exC5p : NodeKind ℚ := .node 2 (.ScalarOp (.Mul 2)) [exC5c] (Layout.from_shape [1] 0)

/-- Root node c + p, id 3. -/
def exC5Root : NodeKind ℚ := .node 3 .Add [exC5c, exC5p] (Layout.from_shape [1] 0)

/-- The same diamond built through the public constructors
(as_promise, * scalar, + tensor), which the claim theorem checks
produces exactly exC5Root. -/
def exC5Built : Except OpError (NodeKind ℚ) :=
  match Tensor.as_promise 1 exC5x with
  | .error e => .error e
  | .ok c =>
    match mul_scalar_impl c 2 2 with
    | .error e => .error e
    | .ok p => add_tensor_impl c p 3

/-- Concrete materialized tensor [5.0] used by the cache-idempotence
witness. -/
def exEdgeFive : NodeKind ℚ := Tensor.from_vec 0 0 [5] [1]

/-- Concrete offset slice for the iterator claim: buffer [10, 20, 30]
viewed with shape [2], stride [1], adj_stride [1], offset 1, len 2 —
the logical origin is the element 20 at buffer index 1. -/
def exSliced : TensorData ℚ := ⟨⟨7, [10, 20, 30]⟩, ⟨[2], [1], [1], 1, 2⟩⟩

/-! Helper lemmas shared by the claim theorems. -/

/-- The head of the row-major stride list is the product of the
remaining dimensions. -/
theorem calculate_dim_stride_cons (x : Int) (rest : List Int) :
    calculate_dim_stride (x :: rest) = rest.prod :: calculate_dim_stride rest := by
  induction rest generalizing x with
  | nil => simp [calculate_dim_stride]
  | cons d rest2 ih =>
    show calculate_dim_stride (x :: d :: rest2) = _
    rw [calculate_dim_stride]
    rw [ih d]
    simp [List.prod_cons]

/-- The adjustment accumulator over row-major strides telescopes to the
shape product minus one. -/
theorem adjAccum_dimStride (l : List Int) (h : l ≠ []) :
    adjAccum (calculate_dim_stride l) l = l.prod - 1 := by
  induction l with
  | nil => exact absurd rfl h
  | cons x rest ih =>
    cases rest with
    | nil => simp [calculate_dim_stride, adjAccum]
    | cons d rest2 =>
      rw [calculate_dim_stride_cons]
      rw [adjAccum]
      rw [ih (by simp)]
      simp [List.prod_cons]
      ring

/-- Over row-major strides the adjacent-stride derivation collapses to
all ones for every integer shape. -/
theorem adjacent_of_dimStride (l : List Int) :
    calculate_adjacent_dim_stride (calculate_dim_stride l) l =
      List.replicate l.length 1 := by
  induction l with
  | nil => simp [calculate_dim_stride, calculate_adjacent_dim_stride]
  | cons x rest ih =>
    rw [calculate_dim_stride_cons, calculate_adjacent_dim_stride]
    cases rest with
    | nil => simp [calculate_adjacent_dim_stride, adjAccum]
    | cons d rest2 =>
      rw [List.tail_cons]
      rw [adjAccum_dimStride (d :: rest2) (by simp)]
      rw [ih]
      simp [List.replicate_succ]

/-- treeIdsList distributes over list append. -/
theorem treeIdsList_append {α : Type} (a b : List (NodeKind α)) :
    treeIdsList (a ++ b) = treeIdsList a ++ treeIdsList b := by
  induction a with
  | nil => simp [treeIdsList]
  | cons x xs ih => simp [treeIdsList, ih]

/-- One step of the queue loop on an already-counted id: the counter
entry is incremented and the node is neither re-sorted nor descended
into. -/
theorem topoSortLoop_seen {α : Type} (inp : NodeKind α) (q : List (NodeKind α))
    (counter : List (Nat × Nat)) (sorted : List (NodeKind α)) (count : Nat)
    (h : alistGet counter (get_id inp) = some count) :
    topoSortLoop (inp :: q) counter sorted =
      topoSortLoop q (alistInsert counter (get_id inp) (count + 1)) sorted := by
  rw [topoSortLoop]
  simp only [h]

/-- One step of the queue loop on a fresh Edge: counted 1, sorted, no
descent. -/
theorem topoSortLoop_edge {α : Type} (id : Nat) (d : TensorData α)
    (q : List (NodeKind α)) (counter : List (Nat × Nat)) (sorted : List (NodeKind α))
    (h : alistGet counter id = none) :
    topoSortLoop (.edge id d :: q) counter sorted =
      topoSortLoop q (alistInsert counter id 1) (sorted ++ [.edge id d]) := by
  rw [topoSortLoop]
  simp only [get_id, h]

/-- One step of the queue loop on a fresh OpNode: counted 1, sorted,
and its inputs are appended at the back of the queue (FIFO, hence
breadth-first). -/
theorem topoSortLoop_node {α : Type} (id : Nat) (op : OpKind α)
    (ninputs : List (NodeKind α)) (layout : Layout)
    (q : List (NodeKind α)) (counter : List (Nat × Nat)) (sorted : List (NodeKind α))
    (h : alistGet counter id = none) :
    topoSortLoop (.node id op ninputs layout :: q) counter sorted =
      topoSortLoop (q ++ ninputs) (alistInsert counter id 1)
        (sorted ++ [.node id op ninputs layout]) := by
  rw [topoSortLoop]
  simp only [get_id, h]

/-- One step of the queue loop on a fresh CacheNode whose slot is
filled: counted 1, sorted as a leaf, inputs not descended into. -/
theorem topoSortLoop_cache_filled {α : Type} (id : Nat) (op : OpKind α)
    (ninputs : List (NodeKind α)) (layout : Layout) (d : TensorData α)
    (q : List (NodeKind α)) (counter : List (Nat × Nat)) (sorted : List (NodeKind α))
    (h : alistGet counter id = none) :
    topoSortLoop (.cache id op ninputs layout (some d) :: q) counter sorted =
      topoSortLoop q (alistInsert counter id 1)
        (sorted ++ [.cache id op ninputs layout (some d)]) := by
  rw [topoSortLoop]
  simp only [get_id, h]

/-- One step of the queue loop on a fresh CacheNode with an empty slot:
behaves like an OpNode. -/
theorem topoSortLoop_cache_empty {α : Type} (id : Nat) (op : OpKind α)
    (ninputs : List (NodeKind α)) (layout : Layout)
    (q : List (NodeKind α)) (counter : List (Nat × Nat)) (sorted : List (NodeKind α))
    (h : alistGet counter id = none) :
    topoSortLoop (.cache id op ninputs layout none :: q) counter sorted =
      topoSortLoop (q ++ ninputs) (alistInsert counter id 1)
        (sorted ++ [.cache id op ninputs layout none]) := by
  rw [topoSortLoop]
  simp only [get_id, h]

/-- Every id in the sorted output of the queue loop comes from the
already-sorted prefix or from the trees in the queue; in particular the
root (never enqueued) never appears. -/
theorem topoSortLoop_ids_subset {α : Type} :
    ∀ (q : List (NodeKind α)) (counter : List (Nat × Nat)) (sorted : List (NodeKind α)),
      ∀ i ∈ (topoSortLoop q counter sorted).1.map get_id,
        i ∈ sorted.map get_id ∨ i ∈ treeIdsList q := by
  intro q counter sorted
  induction q, counter, sorted using topoSortLoop.induct with
  | case1 counter sorted =>
    intro i hi
    left
    simpa [topoSortLoop] using hi
  | case2 inp queue counter sorted lid count hget ih =>
    intro i hi
    rw [topoSortLoop_seen inp queue counter sorted count hget] at hi
    rcases ih i hi with h | h
    · exact Or.inl h
    · right
      simp only [treeIdsList, List.mem_append]
      exact Or.inr h
  | case3 queue counter sorted a d lid hget lc2 ih =>
    intro i hi
    rw [topoSortLoop_edge a d queue counter sorted hget] at hi
    rcases ih i hi with h | h
    · rw [List.map_append] at h
      rcases List.mem_append.mp h with h2 | h2
      · exact Or.inl h2
      · right
        simp only [List.map_cons, List.map_nil, List.mem_cons, get_id] at h2
        simp only [treeIdsList, treeIds, List.mem_append, List.mem_cons]
        rcases h2 with h3 | h3
        · exact Or.inl (by simp [h3])
        · cases h3
    · right
      simp only [treeIdsList, List.mem_append]
      exact Or.inr h
  | case4 queue counter sorted a op ninputs layout lid hget lc2 ih =>
    intro i hi
    rw [topoSortLoop_node a op ninputs layout queue counter sorted hget] at hi
    rcases ih i hi with h | h
    · rw [List.map_append] at h
      rcases List.mem_append.mp h with h2 | h2
      · exact Or.inl h2
      · right
        simp only [List.map_cons, List.map_nil, List.mem_cons, get_id] at h2
        simp only [treeIdsList, treeIds, List.mem_append, List.mem_cons]
        rcases h2 with h3 | h3
        · exact Or.inl (Or.inl h3)
        · cases h3
    · rw [treeIdsList_append] at h
      rcases List.mem_append.mp h with h2 | h2
      · right
        simp only [treeIdsList, List.mem_append]
        exact Or.inr h2
      · right
        simp only [treeIdsList, treeIds, List.mem_append, List.mem_cons]
        exact Or.inl (Or.inr h2)
  | case5 queue counter sorted a op ninputs layout d lid hget lc2 ih =>
    intro i hi
    rw [topoSortLoop_cache_filled a op ninputs layout d queue counter sorted hget] at hi
    rcases ih i hi with h | h
    · rw [List.map_append] at h
      rcases List.mem_append.mp h with h2 | h2
      · exact Or.inl h2
      · right
        simp only [List.map_cons, List.map_nil, List.mem_cons, get_id] at h2
        simp only [treeIdsList, treeIds, List.mem_append, List.mem_cons]
        rcases h2 with h3 | h3
        · exact Or.inl (Or.inl h3)
        · cases h3
    · right
      simp only [treeIdsList, List.mem_append]
      exact Or.inr h
  | case6 queue counter sorted a op ninputs layout lid hget lc2 ih =>
    intro i hi
    rw [topoSortLoop_cache_empty a op ninputs layout queue counter sorted hget] at hi
    rcases ih i hi with h | h
    · rw [List.map_append] at h
      rcases List.mem_append.mp h with h2 | h2
      · exact Or.inl h2
      · right
        simp only [List.map_cons, List.map_nil, List.mem_cons, get_id] at h2
        simp only [treeIdsList, treeIds, List.mem_append, List.mem_cons]
        rcases h2 with h3 | h3
        · exact Or.inl (Or.inl h3)
        · cases h3
    · rw [treeIdsList_append] at h
      rcases List.mem_append.mp h with h2 | h2
      · right
        simp only [treeIdsList, List.mem_append]
        exact Or.inr h2
      · right
        simp only [treeIdsList, treeIds, List.mem_append, List.mem_cons]
        exact Or.inl (Or.inr h2)

/-- A root id that appears nowhere in the input trees never appears in
the sorted list: the sort starts from the root's inputs and the root is
not enqueued. -/
theorem topological_sort_no_root {α : Type} (inputs : List (NodeKind α)) (rid : Nat)
    (h : rid ∉ treeIdsList inputs) :
    rid ∉ (topological_sort inputs).1.map get_id := by
  intro hmem
  rcases topoSortLoop_ids_subset inputs [] [] rid hmem with h2 | h2
  · simp at h2
  · exact h h2

/-- The carry loop preserves the counter's length. -/
theorem sliceCascade_length (sRev : List Int) :
    ∀ (cRev : List Int), (sliceCascade cRev sRev).1.length = cRev.length := by
  induction sRev with
  | nil =>
    intro cRev
    match cRev with
    | [] => rfl
    | [c] => rfl
    | c :: c2 :: cs => rfl
  | cons s ss ih =>
    intro cRev
    match cRev with
    | [] => rfl
    | [c] => rfl
    | c :: c2 :: cs =>
      rw [sliceCascade]
      by_cases h : c = s
      · rw [if_pos h]
        have := ih ((c2 + 1) :: cs)
        simp only [List.length_cons] at this ⊢
        omega
      · rw [if_neg h]

/-- The number of carries performed is less than the counter's length
(the source loop stops at dimension 1, so at most rank - 1 carries
happen). -/
theorem sliceCascade_k_lt (sRev : List Int) :
    ∀ (cRev : List Int), cRev ≠ [] → (sliceCascade cRev sRev).2 < cRev.length := by
  induction sRev with
  | nil =>
    intro cRev h
    match cRev with
    | [c] => simp [sliceCascade]
    | c :: c2 :: cs => simp [sliceCascade]
  | cons s ss ih =>
    intro cRev h
    match cRev with
    | [c] => simp [sliceCascade]
    | c :: c2 :: cs =>
      rw [sliceCascade]
      by_cases hc : c = s
      · rw [if_pos hc]
        have := ih ((c2 + 1) :: cs) (by simp)
        simp only [List.length_cons] at this ⊢
        omega
      · rw [if_neg hc]
        simp

/-- Every delta added by the position generator is an entry of
adj_stride: the generated list of flat positions is a chain whose
successive differences all lie in the (reversed) adjacent-stride
list. -/
theorem sliceIterPositionsAux_chain (shapeRev adjRev : List Int)
    (hlen : adjRev.length = shapeRev.length) (hne : shapeRev ≠ []) :
    ∀ (n : Nat) (pos : Int) (counterRev : List Int),
      counterRev.length = shapeRev.length →
      List.Chain' (fun a b => b - a ∈ adjRev)
        (sliceIterPositionsAux shapeRev adjRev n pos counterRev) := by
  intro n
  induction n with
  | zero =>
    intro pos counterRev hc
    simp [sliceIterPositionsAux]
  | succ m ih =>
    intro pos counterRev hc
    rw [sliceIterPositionsAux]
    have hcne : counterRev ≠ [] := by
      intro hnil
      rw [hnil] at hc
      exact hne (List.length_eq_zero.mp hc.symm)
    obtain ⟨c, cs, rfl⟩ : ∃ c cs, counterRev = c :: cs := by
      match counterRev, hcne with
      | c :: cs, _ => exact ⟨c, cs, rfl⟩
    have hstep : sliceStep shapeRev (c :: cs) = sliceCascade ((c + 1) :: cs) shapeRev := rfl
    have hklt : (sliceStep shapeRev (c :: cs)).2 < adjRev.length := by
      rw [hstep]
      have := sliceCascade_k_lt shapeRev ((c + 1) :: cs) (by simp)
      simp only [List.length_cons] at this
      simp only [List.length_cons] at hc
      omega
    have hclen : (sliceStep shapeRev (c :: cs)).1.length = shapeRev.length := by
      rw [hstep, sliceCascade_length]
      simpa using hc
    cases m with
    | zero =>
      simp [sliceIterPositionsAux]
    | succ m2 =>
      have htail := ih (pos + adjRev.getD (sliceStep shapeRev (c :: cs)).2 0)
        (sliceStep shapeRev (c :: cs)).1 hclen
      rw [sliceIterPositionsAux] at htail ⊢
      refine List.Chain'.cons ?_ htail
      simp only [add_sub_cancel_left]
      rw [List.getD_eq_getElem adjRev 0 hklt]
      exact List.getElem_mem hklt

/-! The claim theorems. -/

/-- C1: the fusion-equivalence claim fails on the code.  For the
materialized tensor x = [0.0] and the chain + 1.0 then - 2.0 applied
through the public scalar operators, the fused construction rewrites to
ScalarOp(Sum(-1)) (fuse_sum_scalar folds the child Sub(2) as adding
-2) and materializes to [-1], while applying the same two operators one
after another to materialized tensors yields [3] (compute_scalar_op's
Sub branch adds its scalar); the results differ by 4, far beyond the
1e-12 tolerance, so the fused and unfused chains disagree. -/
theorem c1_fusion_chain_not_equivalent :
    exC1Fused = .ok (.node 2 (.ScalarOp (.Sum (-1))) [exEdgeZero] (Layout.from_shape [1] 0)) ∧
    (NodeKind.node 2 (.ScalarOp (.Sum (-1))) [exEdgeZero]
        (Layout.from_shape [1] 0)).materialize 100 =
      .ok (TensorData.from_vec 100 [-1] [1]) ∧
    exC1Step1 = .ok (.node 1 (.ScalarOp (.Sum 1)) [exEdgeZero] (Layout.from_shape [1] 0)) ∧
    (NodeKind.node 1 (.ScalarOp (.Sum 1)) [exEdgeZero]
        (Layout.from_shape [1] 0)).materialize 100 = .ok exC1Mid ∧
    exC1Step2 = .ok (.node 11 (.ScalarOp (.Sub 2)) [.edge 10 exC1Mid]
      (Layout.from_shape [1] 0)) ∧
    (NodeKind.node 11 (.ScalarOp (.Sub 2)) [.edge 10 exC1Mid]
        (Layout.from_shape [1] 0)).materialize 101 =
      .ok (TensorData.from_vec 101 [3] [1]) ∧
    ¬ (|(-1 : ℚ) - 3| ≤ 1 / 10 ^ 12) := by
  refine ⟨?_, ?_, ?_, ?_, ?_, ?_, ?_⟩
  · simp [exC1Fused, add_scalar_impl, sub_scalar_impl, TensorGraphNode.new, try_fuse,
      compute_fusion, fuse_scalars, fuse_sum_scalar, compute_layout, get_inputs_layout,
      NodeKind.layoutOf, exEdgeZero, Tensor.from_vec, TensorData.from_vec, Layout.from_shape,
      calculate_dim_stride, List.enum]
    norm_num
  · simp [NodeKind.materialize, graphNodeCompute, topological_sort, topoSortLoop, evalSorted,
      get_inputs_tensor_data, alistGet, alistInsert, alistRemove, get_id, exEdgeZero,
      Tensor.from_vec, TensorData.from_vec, TensorData.clone_reference, Storage.clone_reference,
      cpu_compute, TensorData.copied_iter, TensorData.iterElems, TensorData.iterPositions,
      SliceIter.positions, sliceIterPositionsAux, sliceStep, sliceCascade, Layout.from_shape,
      calculate_dim_stride, compute_scalar_op, cblas_dscal, TensorData.shape, Except.map]
  · simp [exC1Step1, add_scalar_impl, TensorGraphNode.new, try_fuse, compute_fusion,
      compute_layout, get_inputs_layout, NodeKind.layoutOf, exEdgeZero, Tensor.from_vec,
      TensorData.from_vec, Layout.from_shape, calculate_dim_stride, List.enum]
  · simp [NodeKind.materialize, graphNodeCompute, topological_sort, topoSortLoop, evalSorted,
      get_inputs_tensor_data, alistGet, alistInsert, alistRemove, get_id, exEdgeZero, exC1Mid,
      Tensor.from_vec, TensorData.from_vec, TensorData.clone_reference, Storage.clone_reference,
      cpu_compute, TensorData.copied_iter, TensorData.iterElems, TensorData.iterPositions,
      SliceIter.positions, sliceIterPositionsAux, sliceStep, sliceCascade, Layout.from_shape,
      calculate_dim_stride, compute_scalar_op, cblas_dscal, TensorData.shape, Except.map]
  · simp [exC1Step2, sub_scalar_impl, TensorGraphNode.new, try_fuse, compute_fusion,
      compute_layout, get_inputs_layout, NodeKind.layoutOf, exC1Mid, TensorData.from_vec,
      Layout.from_shape, calculate_dim_stride, List.enum]
  · simp [NodeKind.materialize, graphNodeCompute, topological_sort, topoSortLoop, evalSorted,
      get_inputs_tensor_data, alistGet, alistInsert, alistRemove, get_id, exC1Mid,
      TensorData.from_vec, TensorData.clone_reference, Storage.clone_reference,
      cpu_compute, TensorData.copied_iter, TensorData.iterElems, TensorData.iterPositions,
      SliceIter.positions, sliceIterPositionsAux, sliceStep, sliceCascade, Layout.from_shape,
      calculate_dim_stride, compute_scalar_op, cblas_dscal, TensorData.shape, Except.map]
    norm_num
  · norm_num

/-- C2: the scalar kernel's Sum and Mul branches follow the claim, but
the Sub branch adds its scalar (Sub(2) on [1] gives [3], not [-1]) and
the Div branch passes the scalar straight to the dscal scaling routine
(Div(4) on [1] gives [4], not [1/4]), contradicting the documented
elementwise semantics. -/
theorem c2_scalar_kernel_sub_adds_div_multiplies :
    compute_scalar_op (OpScalarKind.Sum (2 : ℚ)) [1] = [3] ∧
    compute_scalar_op (OpScalarKind.Sub (2 : ℚ)) [1] = [3] ∧
    compute_scalar_op (OpScalarKind.Mul (4 : ℚ)) [1] = [4] ∧
    compute_scalar_op (OpScalarKind.Div (4 : ℚ)) [1] = [4] ∧
    ([3] : List ℚ) ≠ [1 - 2] ∧ ([4] : List ℚ) ≠ [1 / 4] := by
  refine ⟨?_, ?_, ?_, ?_, ?_, ?_⟩ <;> norm_num [compute_scalar_op, cblas_dscal]

/-- C3: when the pair rule does not collapse (mixed families), the
rewriter builds ops[..last] followed by the child alone, dropping the
old tail: fusing FusedScalar([Sum 1, Mul 2]) with child Sum 3 yields
FusedScalar([Sum 1, Sum 3]) — Mul 2 is gone — instead of the claimed
FusedScalar([Sum 1, Mul 2, Sum 3]).  The replace-the-tail branch does
behave as claimed (second conjunct). -/
theorem c3_fused_chain_tail_dropped :
    (fuse_scalar_combination [OpScalarKind.Sum (1 : ℚ), .Mul 2] [exEdgeZero] (.Sum 3)).op =
      .FusedScalar [.Sum 1, .Sum 3] ∧
    (fuse_scalar_combination [OpScalarKind.Sum (1 : ℚ), .Mul 2] [exEdgeZero] (.Sum 3)).inputs =
      [exEdgeZero] ∧
    (fuse_scalar_combination [OpScalarKind.Mul (2 : ℚ), .Sum 1] [exEdgeZero] (.Sum 3)).op =
      .FusedScalar [.Mul 2, .Sum 4] ∧
    OpScalarKind.Mul (2 : ℚ) ∉ ([.Sum 1, .Sum 3] : List (OpScalarKind ℚ)) := by
  refine ⟨?_, ?_, ?_, ?_⟩
  · rfl
  · rfl
  · norm_num [fuse_scalar_combination, fuse_scalars, fuse_sum_scalar]
  · simp

/-- C4: a binary op over mismatched shapes does fail with NotSameShape,
but the source passes inputs[0].shape() in both payload positions, so
ones([2,3]) + ones([3,2]) reports expected [2,3] and got [2,3] instead
of the claimed got [3,2]. -/
theorem c4_not_same_shape_payload_wrong :
    compute_layout (OpKind.Add (α := ℚ))
        [Layout.from_shape [2, 3] 0, Layout.from_shape [3, 2] 0] =
      .error (.NotSameShape [2, 3] [2, 3]) ∧
    ([2, 3] : List Int) ≠ [3, 2] := by
  exact ⟨rfl, by decide⟩

/-- C5: the refcount law fails on a diamond.  The public construction
c + (c * 2.0) with c = x.as_promise() yields the Add root over [c, p];
the breadth-first queue of topological_sort discovers c before p, so
the reversed evaluation order runs p before its operand c and the
computation-cache lookup for c comes back empty — the evaluator hits
the fatal unwrap (cacheEntryMissing) instead of finishing with an
empty cache. -/
theorem c5_diamond_evaluator_cache_miss :
    exC5Built = .ok exC5Root ∧
    exC5Root.materialize 100 = .error .cacheEntryMissing := by
  constructor
  · simp [exC5Built, exC5Root, exC5c, exC5p, exC5x, Tensor.as_promise, mul_scalar_impl,
      add_tensor_impl, TensorGraphNode.new, TensorGraphNode.with_layout, try_fuse,
      compute_fusion, compute_layout, get_inputs_layout, NodeKind.layoutOf, Tensor.from_vec,
      TensorData.from_vec, Layout.from_shape, calculate_dim_stride, List.enum]
  · simp [NodeKind.materialize, graphNodeCompute, topological_sort, topoSortLoop, evalSorted,
      get_inputs_tensor_data, alistGet, alistInsert, alistRemove, exC5Root, exC5c, exC5p,
      exC5x, get_id, Tensor.from_vec, TensorData.from_vec, TensorData.clone_reference,
      Storage.clone_reference, cpu_compute, Except.map]

/-- C6: cache idempotence.  Whenever the inner OpNode's compute
succeeds, the first cacheNodeCompute runs it exactly once (count 1) and
fills the slot with a reference-clone of the result; a second call with
that slot returns a reference-clone of the slot without running the
inner node (count 0), and the two returned TensorDatas share the same
storage allocation (equal bufId) with equal layouts.  The last conjunct
is the evaluator's Cache branch inside a larger walk: a filled slot is
inserted as a reference-clone without gathering inputs or dispatching a
kernel. -/
theorem c6_cached_promise_idempotent (op : OpKind ℚ) (inputs : List (NodeKind ℚ))
    (nb nb2 : Nat) (t : TensorData ℚ) (cacheF : List (Nat × TensorData ℚ))
    (h : graphNodeCompute op inputs nb = .ok (t, cacheF, nb2)) :
    cacheNodeCompute op inputs none nb = .ok (t, some t.clone_reference, nb2, 1) ∧
    cacheNodeCompute op inputs (some t.clone_reference) nb2 =
      .ok (t.clone_reference.clone_reference, some t.clone_reference, nb2, 0) ∧
    t.clone_reference.clone_reference.storage.bufId = t.storage.bufId ∧
    t.clone_reference.clone_reference.layout = t.layout ∧
    (∀ (id : Nat) (op2 : OpKind ℚ) (ninputs : List (NodeKind ℚ)) (layout : Layout)
        (d : TensorData ℚ) (rest : List (NodeKind ℚ)) (cache : List (Nat × TensorData ℚ))
        (counter : List (Nat × Nat)) (nbW : Nat),
      evalSorted (.cache id op2 ninputs layout (some d) :: rest) cache counter nbW =
        evalSorted rest (alistInsert cache id d.clone_reference) counter nbW) := by
  refine ⟨?_, rfl, rfl, rfl, ?_⟩
  · simp [cacheNodeCompute, h]
  · intro id op2 ninputs layout d rest cache counter nbW
    rfl

/-- C7 (counterexample): the sort is not depth-first.  On the diamond
[c, p] with p's input c and c's input the edge x, the source's queue
loop yields the breadth-first id order [1, 2, 0] while the spec's
depth-first walk yields [1, 0, 2]. -/
theorem c7_sort_not_depth_first :
    (topological_sort [exC5c, exC5p]).1.map get_id = [1, 2, 0] ∧
    specDfsOrder [exC5c, exC5p] = [1, 0, 2] ∧
    ([1, 2, 0] : List Nat) ≠ [1, 0, 2] := by
  refine ⟨?_, ?_, by decide⟩
  · simp [topological_sort, topoSortLoop, exC5c, exC5p, exC5x, get_id, alistGet, alistInsert,
      Tensor.from_vec]
  · simp [specDfsOrder, specDfsVisit, exC5c, exC5p, exC5x, get_id, alistGet, alistInsert,
      Tensor.from_vec]

/-- C7 (amended): the sort starts from the root's inputs and walks them
in breadth-first FIFO order.  An id never occurring in the input trees
(in particular the root's own fresh id) never enters the sorted list; a
seen id only increments its counter; a fresh OpNode is counted 1,
appended to the sorted list and its inputs are pushed at the back of
the queue; a fresh CacheNode with a filled slot is counted 1 and sorted
as a leaf with no descent; and on the diamond the order is the
breadth-first [1, 2, 0] with final counts c: 2, p: 1, x: 1. -/
theorem c7_sort_breadth_first :
    (∀ (inputs : List (NodeKind ℚ)) (rid : Nat), rid ∉ treeIdsList inputs →
      rid ∉ (topological_sort inputs).1.map get_id) ∧
    (∀ (inp : NodeKind ℚ) (q : List (NodeKind ℚ)) (counter : List (Nat × Nat))
        (sorted : List (NodeKind ℚ)) (count : Nat),
      alistGet counter (get_id inp) = some count →
      topoSortLoop (inp :: q) counter sorted =
        topoSortLoop q (alistInsert counter (get_id inp) (count + 1)) sorted) ∧
    (∀ (id : Nat) (op : OpKind ℚ) (ninputs : List (NodeKind ℚ)) (layout : Layout)
        (q : List (NodeKind ℚ)) (counter : List (Nat × Nat)) (sorted : List (NodeKind ℚ)),
      alistGet counter id = none →
      topoSortLoop (.node id op ninputs layout :: q) counter sorted =
        topoSortLoop (q ++ ninputs) (alistInsert counter id 1)
          (sorted ++ [.node id op ninputs layout])) ∧
    (∀ (id : Nat) (op : OpKind ℚ) (ninputs : List (NodeKind ℚ)) (layout : Layout)
        (d : TensorData ℚ) (q : List (NodeKind ℚ)) (counter : List (Nat × Nat))
        (sorted : List (NodeKind ℚ)),
      alistGet counter id = none →
      topoSortLoop (.cache id op ninputs layout (some d) :: q) counter sorted =
        topoSortLoop q (alistInsert counter id 1)
          (sorted ++ [.cache id op ninputs layout (some d)])) ∧
    (topological_sort [exC5c, exC5p]).1.map get_id = [1, 2, 0] ∧
    (topological_sort [exC5c, exC5p]).2 = [(1, 2), (2, 1), (0, 1)] := by
  refine ⟨topological_sort_no_root, ?_, ?_, ?_, ?_, ?_⟩
  · intro inp q counter sorted count hget
    exact topoSortLoop_seen inp q counter sorted count hget
  · intro id op ninputs layout q counter sorted hget
    exact topoSortLoop_node id op ninputs layout q counter sorted hget
  · intro id op ninputs layout d q counter sorted hget
    exact topoSortLoop_cache_filled id op ninputs layout d q counter sorted hget
  · simp [topological_sort, topoSortLoop, exC5c, exC5p, exC5x, get_id, alistGet, alistInsert,
      Tensor.from_vec]
  · simp [topological_sort, topoSortLoop, exC5c, exC5p, exC5x, get_id, alistGet, alistInsert,
      Tensor.from_vec]

/-- C8: for every shape of rank at least 1 with positive dimensions, a
freshly built row-major layout caches adj_stride equal to all ones, and
the cached value agrees with the derivation
calculate_adjacent_dim_stride over calculate_dim_stride, which also
collapses to all ones. -/
theorem c8_fresh_layout_adj_stride_ones (shape : List Int) (offset : Nat)
    (hrank : shape ≠ []) (hpos : ∀ d ∈ shape, 0 < d) :
    (Layout.from_shape shape offset).adj_stride = List.replicate shape.length 1 ∧
    calculate_adjacent_dim_stride (calculate_dim_stride shape) shape =
      List.replicate shape.length 1 ∧
    calculate_adjacent_dim_stride (calculate_dim_stride shape) shape =
      (Layout.from_shape shape offset).adj_stride := by
  refine ⟨rfl, adjacent_of_dimStride shape, ?_⟩
  rw [adjacent_of_dimStride shape]
  rfl

/-- C8 (witness): the theorem at the concrete shape [2, 3, 4]. -/
theorem c8_fresh_layout_adj_stride_ones_witness :
    (Layout.from_shape [2, 3, 4] 0).adj_stride = List.replicate 3 1 ∧
    calculate_adjacent_dim_stride (calculate_dim_stride [2, 3, 4]) [2, 3, 4] =
      List.replicate 3 1 ∧
    calculate_adjacent_dim_stride (calculate_dim_stride [2, 3, 4]) [2, 3, 4] =
      (Layout.from_shape [2, 3, 4] 0).adj_stride :=
  c8_fresh_layout_adj_stride_ones [2, 3, 4] 0 (by decide) (by decide)

/-- C9 (counterexample): the engine does produce a rank-0 layout.  On a
layout of len 1, view([]) is accepted (the empty product is 1) and the
resulting layout's shape has length 0. -/
theorem c9_rank_zero_view_accepted :
    (Layout.view (Layout.from_shape [1] 0) []).toOption.isSome = true ∧
    (Layout.view (Layout.from_shape [1] 0) []).toOption.map (fun l => l.shape.length) =
      some 0 := by
  exact ⟨rfl, rfl⟩

/-- C9 (amended): view accepts a requested shape exactly when the
non-negative clamp of its product, cast to usize, equals the layout's
len, and an accepted view carries exactly the requested shape (hence a
requested empty shape — accepted precisely when len is 1 — yields a
rank-0 layout) with the offset preserved. -/
theorem c9_view_acceptance (l : Layout) (shape : List Int) :
    ((Layout.view l shape).toOption.isSome ↔ (max shape.prod 0).toNat = l.len) ∧
    (∀ l2, Layout.view l shape = .ok l2 →
      l2.shape = shape ∧ l2.offset = l.offset) := by
  have hview : Layout.view l shape =
      if (max shape.prod 0).toNat ≠ l.len then .error .InvalidViewShape
      else .ok (Layout.from_shape shape l.offset) := rfl
  constructor
  · rw [hview]
    by_cases h : (max shape.prod 0).toNat = l.len
    · rw [if_neg (not_not_intro h)]
      simp [Except.toOption, h]
    · rw [if_pos h]
      simp [Except.toOption, h]
  · intro l2 h2
    rw [hview] at h2
    by_cases h : (max shape.prod 0).toNat = l.len
    · rw [if_neg (not_not_intro h)] at h2
      cases h2
      exact ⟨rfl, rfl⟩
    · rw [if_pos h] at h2
      cases h2

/-- C9 (amended, witness): the theorem at the layout of shape [2, 3]
and the requested shape [6]. -/
theorem c9_view_acceptance_witness :
    ((Layout.view (Layout.from_shape [2, 3] 0) [6]).toOption.isSome ↔
      (max ([6] : List Int).prod 0).toNat = (Layout.from_shape [2, 3] 0).len) ∧
    ((Layout.from_shape [6] 0).shape = [6] ∧
      (Layout.from_shape [6] 0).offset = (Layout.from_shape [2, 3] 0).offset) :=
  ⟨(c9_view_acceptance (Layout.from_shape [2, 3] 0) [6]).1,
    (c9_view_acceptance (Layout.from_shape [2, 3] 0) [6]).2 (Layout.from_shape [6] 0) rfl⟩

/-- C10: the element traversal of iter() and copied_iter() starts at
flat buffer position 0 — the constructor stores pos 0 and the layout's
offset is never passed — and every later step advances the position by
an adj_stride entry; consequently the traversal is unchanged by any
offset, and on a layout with positive offset the first element yielded
is the one at buffer index 0, not the logical origin. -/
theorem c10_iter_ignores_offset (td : TensorData ℚ)
    (hlen : 0 < td.layout.len) (hrank : td.layout.shape ≠ [])
    (hadj : td.layout.adj_stride.length = td.layout.shape.length)
    (hoff : 0 < td.layout.offset) :
    td.iterPositions.head? = some 0 ∧
    td.iterElems.head? = some (td.storage.buffer.getD 0 default) ∧
    td.copied_iter = td.iterElems ∧
    (∀ off : Nat,
      TensorData.iterElems ⟨td.storage,
        ⟨td.layout.shape, td.layout.stride, td.layout.adj_stride, off, td.layout.len⟩⟩ =
      td.iterElems) ∧
    List.Chain' (fun a b => b - a ∈ td.layout.adj_stride) td.iterPositions := by
  have hhead : td.iterPositions.head? = some 0 := by
    unfold TensorData.iterPositions SliceIter.positions
    cases hl : td.layout.len with
    | zero => omega
    | succ m =>
      rw [sliceIterPositionsAux]
      rfl
  refine ⟨hhead, ?_, rfl, ?_, ?_⟩
  · unfold TensorData.iterElems
    rw [List.head?_map, hhead]
    rfl
  · intro off
    unfold TensorData.iterElems TensorData.iterPositions SliceIter.positions
    rfl
  · have hchain := sliceIterPositionsAux_chain td.layout.shape.reverse
      td.layout.adj_stride.reverse (by simp [hadj]) (by simpa using hrank)
      td.layout.len 0 (List.replicate td.layout.shape.length 0) (by simp)
    unfold TensorData.iterPositions SliceIter.positions
    refine List.Chain'.imp ?_ hchain
    intro a b hab
    exact List.mem_reverse.mp hab

/-- C10 (witness): the theorem at the concrete offset-1 slice of the
buffer [10, 20, 30] — the first element yielded is 10 at buffer index
0, not the logical origin 20 at index 1. -/
theorem c10_iter_ignores_offset_witness :
    exSliced.iterPositions.head? = some 0 ∧
    exSliced.iterElems.head? = some (exSliced.storage.buffer.getD 0 default) ∧
    exSliced.copied_iter = exSliced.iterElems ∧
    (∀ off : Nat,
      TensorData.iterElems ⟨exSliced.storage,
        ⟨exSliced.layout.shape, exSliced.layout.stride, exSliced.layout.adj_stride, off,
          exSliced.layout.len⟩⟩ = exSliced.iterElems) ∧
    List.Chain' (fun a b => b - a ∈ exSliced.layout.adj_stride) exSliced.iterPositions :=
  c10_iter_ignores_offset exSliced (by decide) (by decide) (by decide) (by decide)

/-- C6 (witness): the theorem at the cached node Sum(1.0) over the
tensor [5.0], whose inner compute yields [6.0] in fresh buffer 100. -/
theorem c6_cached_promise_idempotent_witness :
    cacheNodeCompute (OpKind.ScalarOp (.Sum (1 : ℚ))) [exEdgeFive] none 100 =
      .ok (TensorData.from_vec 100 [6] [1],
        some (TensorData.from_vec 100 [6] [1]).clone_reference, 101, 1) ∧
    cacheNodeCompute (OpKind.ScalarOp (.Sum (1 : ℚ))) [exEdgeFive]
        (some (TensorData.from_vec 100 [6] [1]).clone_reference) 101 =
      .ok ((TensorData.from_vec 100 [6] [1]).clone_reference.clone_reference,
        some (TensorData.from_vec 100 [6] [1]).clone_reference, 101, 0) ∧
    (TensorData.from_vec 100 [6] [1]).clone_reference.clone_reference.storage.bufId =
      (TensorData.from_vec 100 [6] [1]).storage.bufId ∧
    (TensorData.from_vec 100 [6] [1]).clone_reference.clone_reference.layout =
      (TensorData.from_vec 100 [6] [1]).layout ∧
    (∀ (id : Nat) (op2 : OpKind ℚ) (ninputs : List (NodeKind ℚ)) (layout : Layout)
        (d : TensorData ℚ) (rest : List (NodeKind ℚ)) (cache : List (Nat × TensorData ℚ))
        (counter : List (Nat × Nat)) (nbW : Nat),
      evalSorted (.cache id op2 ninputs layout (some d) :: rest) cache counter nbW =
        evalSorted rest (alistInsert cache id d.clone_reference) counter nbW) :=
  c6_cached_promise_idempotent (OpKind.ScalarOp (.Sum (1 : ℚ))) [exEdgeFive] 100 101
    (TensorData.from_vec 100 [6] [1]) []
    (by
      simp [graphNodeCompute, topological_sort, topoSortLoop, evalSorted,
        get_inputs_tensor_data, alistGet, alistInsert, alistRemove, get_id, exEdgeFive,
        Tensor.from_vec, TensorData.from_vec, TensorData.clone_reference,
        Storage.clone_reference, cpu_compute, TensorData.copied_iter, TensorData.iterElems,
        TensorData.iterPositions, SliceIter.positions, sliceIterPositionsAux, sliceStep,
        sliceCascade, Layout.from_shape, calculate_dim_stride, compute_scalar_op,
        cblas_dscal, TensorData.shape]
      norm_num)

/-- C7 (amended, witness): the theorem's clauses at concrete inputs —
a fresh id 77 never enters the sorted list of the diamond, a seen id is
only re-counted, a fresh node is sorted with its inputs queued at the
back, a filled cache is sorted as a leaf, and the diamond's concrete
breadth-first order and counts. -/
theorem c7_sort_breadth_first_witness :
    (77 ∉ (topological_sort [exC5c, exC5p]).1.map get_id) ∧
    topoSortLoop [exC5c] [(1, 5)] [] =
      topoSortLoop [] (alistInsert [(1, 5)] (get_id exC5c) 6) [] ∧
    topoSortLoop [.node 9 .NoOp [exC5x] (Layout.from_shape [1] 0)] [] [] =
      topoSortLoop [exC5x] (alistInsert [] 9 1)
        [.node 9 (OpKind.NoOp (α := ℚ)) [exC5x] (Layout.from_shape [1] 0)] ∧
    topoSortLoop [.cache 9 .NoOp [exC5x] (Layout.from_shape [1] 0)
        (some (TensorData.from_vec 0 [5] [1]))] [] [] =
      topoSortLoop [] (alistInsert [] 9 1)
        [.cache 9 (OpKind.NoOp (α := ℚ)) [exC5x] (Layout.from_shape [1] 0)
          (some (TensorData.from_vec 0 [5] [1]))] ∧
    (topological_sort [exC5c, exC5p]).1.map get_id = [1, 2, 0] ∧
    (topological_sort [exC5c, exC5p]).2 = [(1, 2), (2, 1), (0, 1)] :=
  ⟨c7_sort_breadth_first.1 [exC5c, exC5p] 77 (by decide),
    c7_sort_breadth_first.2.1 exC5c [] [(1, 5)] [] 5 rfl,
    c7_sort_breadth_first.2.2.1 9 .NoOp [exC5x] (Layout.from_shape [1] 0) [] [] [] rfl,
    c7_sort_breadth_first.2.2.2.1 9 .NoOp [exC5x] (Layout.from_shape [1] 0)
      (TensorData.from_vec 0 [5] [1]) [] [] [] rfl,
    c7_sort_breadth_first.2.2.2.2.1,
    c7_sort_breadth_first.2.2.2.2.2⟩

end RustTensor
